import Mathlib

/-!
Shallow embedding of the Boros strategy engine.

Source files: `strats.py` (strategies, strategy manager, portfolio bookkeeping)
and `strategy_bot.py` (alert gate).  Python floats are modelled as `ℚ` (every
constant in the source is an exact decimal and the operations used are
`+ - * / abs max min` and comparisons); Python dicts with string keys are
modelled as association lists; fallible Python code (raising exceptions) is
modelled with `Except String`.
-/

/-- Model of Python `d.get(k, default)` on a string-keyed dict. -/
def dictGet {α : Type} : List (String × α) → String → α → α
  | [], _, d => d
  | p :: rest, k, d => if p.1 = k then p.2 else dictGet rest k d

/-- Model of Python `d.get(k)` (returning `None` when absent). -/
def dictGetOpt {α : Type} : List (String × α) → String → Option α
  | [], _ => none
  | p :: rest, k => if p.1 = k then some p.2 else dictGetOpt rest k

/-- Model of Python dict item assignment `d[k] = v` (replace first binding, else append). -/
def dictSet {α : Type} : List (String × α) → String → α → List (String × α)
  | [], k, v => [(k, v)]
  | p :: rest, k, v => if p.1 = k then (k, v) :: rest else p :: dictSet rest k v

theorem dictGet_dictSet_self {α : Type} (d : List (String × α)) (k : String) (v : α)
    (dflt : α) : dictGet (dictSet d k v) k dflt = v := by
  induction d with
  | nil => simp [dictSet, dictGet]
  | cons p rest ih =>
      by_cases h : p.1 = k
      · simp [dictSet, h, dictGet]
      · simp [dictSet, h, dictGet, ih]

theorem dictGet_dictSet_ne {α : Type} (d : List (String × α)) (k k' : String) (v : α)
    (dflt : α) (h : k' ≠ k) : dictGet (dictSet d k v) k' dflt = dictGet d k' dflt := by
  have hk : ¬ (k = k') := fun hh => h hh.symm
  induction d with
  | nil => simp [dictSet, dictGet, hk]
  | cons p rest ih =>
      by_cases hp : p.1 = k
      · have hp' : ¬ p.1 = k' := by rw [hp]; exact hk
        simp [dictSet, hp, dictGet, hk, hp']
      · simp [dictSet, hp, dictGet, ih]

theorem dictGet_eq_getOpt {α : Type} (d : List (String × α)) (k : String) (dflt : α) :
    dictGet d k dflt = (dictGetOpt d k).getD dflt := by
  induction d with
  | nil => simp [dictGet, dictGetOpt]
  | cons p rest ih =>
      by_cases h : p.1 = k <;> simp [dictGet, dictGetOpt, h, ih]

/-- Boolean test that the first list is an initial segment of the second
(model of Python `str.startswith`, on the character lists). -/
def strPrefixOf : List Char → List Char → Bool
  | [], _ => true
  | _ :: _, [] => false
  | a :: as, b :: bs => a == b && strPrefixOf as bs

theorem strPrefixOf_append (p t : List Char) : strPrefixOf p (p ++ t) = true := by
  induction p with
  | nil => simp [strPrefixOf]
  | cons a as ih => simp [strPrefixOf, ih]

theorem strPrefixOf_exists {p s : List Char} (h : strPrefixOf p s = true) :
    ∃ t, s = p ++ t := by
  induction p generalizing s with
  | nil => exact ⟨s, rfl⟩
  | cons a as ih =>
      cases s with
      | nil => simp [strPrefixOf] at h
      | cons b bs =>
          simp only [strPrefixOf, Bool.and_eq_true, beq_iff_eq] at h
          obtain ⟨t, ht⟩ := ih h.2
          exact ⟨t, by simp [h.1, ht]⟩

/-- Model of Python `s.startswith(p)`. -/
def pyStartsWith (s p : String) : Bool := strPrefixOf p.data s.data

/-- Model of Python `s.upper()` (ASCII-sufficient for the strings this engine uses). -/
def pyUpper (s : String) : String := ⟨s.data.map Char.toUpper⟩

/-- Model of Python `s.lower()` (ASCII-sufficient for the strings this engine uses). -/
def pyLower (s : String) : String := ⟨s.data.map Char.toLower⟩

/-! ## Data model (`strats.py`) -/

/-- `class StrategyType(Enum)` in `strats.py`. -/
inductive StrategyType
  | SIMPLE_DIRECTIONAL
  | FIXED_FLOATING_SWAP
  | TRIPLE_PROFIT
  | MEAN_REVERSION
  | DELTA_NEUTRAL_HEDGE
  | CAPITAL_EFFICIENT_HEDGE
  | IMPLIED_APR_BANDS
deriving DecidableEq

/-- The `.value` string of each `StrategyType` member. -/
def StrategyType.value : StrategyType → String
  | .SIMPLE_DIRECTIONAL => "simple_directional"
  | .FIXED_FLOATING_SWAP => "fixed_floating_swap"
  | .TRIPLE_PROFIT => "triple_profit"
  | .MEAN_REVERSION => "mean_reversion"
  | .DELTA_NEUTRAL_HEDGE => "delta_neutral_hedge"
  | .CAPITAL_EFFICIENT_HEDGE => "capital_efficient_hedge"
  | .IMPLIED_APR_BANDS => "implied_apr_bands"

/-- `@dataclass MarketCondition` in `strats.py`.  `time_to_next_funding`
is modelled in seconds. -/
structure MarketCondition where
  symbol : String
  cex_funding_rate : ℚ
  boros_implied_apr : ℚ
  spread : ℚ
  volatility : ℚ
  liquidity : ℚ
  time_to_next_funding : ℚ

/-- The duck-typed opportunity dictionaries produced by the strategies.  Every
key any strategy or the manager ever touches is a field; `none` models an
absent key (equivalently, for `stop_loss`/`take_profit`, a key present with
value `None` — the two are indistinguishable to every `.get` in the source). -/
structure Opportunity where
  strategy : Option StrategyType := none
  strategy_type : Option String := none
  action : Option String := none
  position_type : Option String := none
  current_spread : Option ℚ := none
  abs_spread : Option ℚ := none
  expected_apy : Option ℚ := none
  risk_score : Option ℚ := none
  max_position_size : Option ℚ := none
  recommended_leverage : Option ℚ := none
  current_implied_apr : Option ℚ := none
  target_implied_apr : Option ℚ := none
  expected_move : Option ℚ := none
  dca_step : Option ℚ := none
  max_adds : Option ℤ := none
  stop_loss : Option ℚ := none
  take_profit : Option ℚ := none
deriving DecidableEq

/-- `@dataclass Position` in `strats.py` (`entry_timestamp` in seconds). -/
structure Position where
  strategy : StrategyType
  symbol : String
  position_type : String
  size : ℚ
  entry_implied_apr : ℚ
  entry_timestamp : ℚ
  collateral_used : ℚ
  leverage : ℚ
  health_factor : ℚ
  expected_apy : ℚ
  stop_loss : Option ℚ := none
  take_profit : Option ℚ := none

/-! ## Simple Directional strategy (`strats.py` lines 65–157)

The position state store (`positions_state.json`) holds a JSON object mapping
symbol to one of the strings `"NONE" | "LONG" | "SHORT"` (the only values the
code ever writes); it is modelled as an association list. -/

/-- The persisted symbol → position-string mapping. -/
abbrev Store := List (String × String)

/-- `self.min_spread = 0.005` (`SimpleDirectionalStrategy.__init__`). -/
def min_spread : ℚ := 0.005

/-- `self.exit_threshold = 0.002` (`SimpleDirectionalStrategy.__init__`). -/
def exit_threshold : ℚ := 0.002

/-- The entry-opportunity dict built in `SimpleDirectionalStrategy.evaluate_opportunity`
(the human-readable `rationale` string is omitted: nothing reads it). -/
def enterOpp (action new_position : String) (spread abs_spread : ℚ) : Opportunity :=
  { strategy_type := some "simple_directional"
    action := some action
    position_type := some (pyLower new_position)
    current_spread := some spread
    abs_spread := some abs_spread
    expected_apy := some (abs_spread * 1)
    risk_score := some 0.3
    max_position_size := some 50000 }

/-- The exit-opportunity dict built in `SimpleDirectionalStrategy.evaluate_opportunity`. -/
def exitOpp (current_position : String) (spread abs_spread : ℚ) : Opportunity :=
  { strategy_type := some "simple_directional"
    action := some ("EXIT_" ++ current_position)
    position_type := some (pyLower current_position)
    current_spread := some spread
    abs_spread := some abs_spread
    expected_apy := some 0
    risk_score := some 0.1
    max_position_size := some 0 }

/-- `SimpleDirectionalStrategy.evaluate_opportunity` after `load_positions`:
given the loaded store, it returns the opportunity (or `none`), the store as
left on disk, and whether `save_positions` was called. -/
def evaluate_core (market : MarketCondition) (positions : Store) :
    Option Opportunity × Store × Bool :=
  let current_position := dictGet positions market.symbol "NONE"
  let spread := market.cex_funding_rate - market.boros_implied_apr
  let abs_spread := |spread|
  if current_position = "NONE" then
    if min_spread ≤ abs_spread then
      if 0 < spread then
        (some (enterOpp "ENTER_LONG" "LONG" spread abs_spread),
         dictSet positions market.symbol "LONG", true)
      else
        (some (enterOpp "ENTER_SHORT" "SHORT" spread abs_spread),
         dictSet positions market.symbol "SHORT", true)
    else (none, positions, false)
  else
    if abs_spread ≤ exit_threshold then
      (some (exitOpp current_position spread abs_spread),
       dictSet positions market.symbol "NONE", true)
    else (none, positions, false)

/-- State of the `positions_state.json` file on disk. -/
inductive FileState
  | missing
  | invalidJson
  | valid (positions : Store)

/-- `SimpleDirectionalStrategy.load_positions`: `open` raises `FileNotFoundError`
on a missing file, which is the only exception caught (→ `{}`); `json.load` on
content that is not valid JSON raises `json.JSONDecodeError`, which is not caught. -/
def load_positions : FileState → Except String Store
  | .missing => .ok []
  | .invalidJson => .error "json.JSONDecodeError"
  | .valid positions => .ok positions

/-- `SimpleDirectionalStrategy.evaluate_opportunity` at file level: load the
store, run the evaluation, and write the file exactly when the code calls
`save_positions`. -/
def evaluate_opportunity_file (market : MarketCondition) (fs : FileState) :
    Except String (Option Opportunity × FileState) :=
  match load_positions fs with
  | .error e => .error e
  | .ok positions =>
      let r := evaluate_core market positions
      .ok (r.1, if r.2.2 then .valid r.2.1 else fs)

/-- The sequence of emitted actions over a list of snapshots, threading the
persisted store through the successive evaluations. -/
def actionsOf : List MarketCondition → Store → List (Option String)
  | [], _ => []
  | m :: rest, st =>
      ((evaluate_core m st).1.bind (fun o => o.action)) ::
        actionsOf rest (evaluate_core m st).2.1

/-- The persisted store after a list of snapshots has been evaluated. -/
def runStore : List MarketCondition → Store → Store
  | [], st => st
  | m :: rest, st => runStore rest (evaluate_core m st).2.1

/-- Whether an emitted action string is an entry action. -/
def isEnter (a : String) : Bool := a == "ENTER_LONG" || a == "ENTER_SHORT"

/-- The exit action that closes the position opened by a given entry action. -/
def matchingExit (a : String) : String :=
  if a = "ENTER_LONG" then "EXIT_LONG" else "EXIT_SHORT"

example : evaluate_core ⟨"ETHUSDT", 0.09, 0.05, 0.04, 0.3, 1000000, 14400⟩ [] =
    (some (enterOpp "ENTER_LONG" "LONG" (1/25) (1/25)), [("ETHUSDT", "LONG")], true) := by
  norm_num [evaluate_core, dictGet, dictSet, min_spread, exit_threshold, abs_of_pos]

/-! ## Implied-APR Band strategy (`strats.py` lines 338–425) -/

/-- Typed view of one symbol's band dict (the six keys every band dict the
code constructs or merges over defaults carries). -/
structure BandConfig where
  long_entry : ℚ
  long_exit : ℚ
  short_entry : ℚ
  short_exit : ℚ
  dca_step : ℚ
  max_adds : ℤ
deriving DecidableEq

/-- `self.bands_by_symbol` as initialized in `ImpliedAPRBandStrategy.__init__`. -/
def bands_by_symbol₀ : List (String × BandConfig) :=
  [("ETHUSDT", ⟨0.0600, 0.0685, 0.0800, 0.0680, 0.0025, 3⟩)]

/-- `self.default_bands` in `ImpliedAPRBandStrategy.__init__`. -/
def default_bands : BandConfig := ⟨0.0600, 0.0680, 0.0800, 0.0680, 0.0025, 2⟩

/-- `ImpliedAPRBandStrategy.get_bands`: `self.bands_by_symbol.get(symbol, self.default_bands)`. -/
def get_bands (bands_by_symbol : List (String × BandConfig)) (symbol : String) : BandConfig :=
  dictGet bands_by_symbol symbol default_bands

/-- `ImpliedAPRBandStrategy.evaluate_opportunity`, with the strategy's
`bands_by_symbol` attribute passed explicitly. -/
def evaluate_band (bands_by_symbol : List (String × BandConfig))
    (market : MarketCondition) : Option Opportunity :=
  let bands := get_bands bands_by_symbol market.symbol
  let apr := market.boros_implied_apr
  if apr ≤ bands.long_entry then
    let move := max 0 (bands.long_exit - apr)
    let sensitivity : ℚ := 4
    some { strategy_type := some "implied_apr_bands_long"
           position_type := some "long"
           current_implied_apr := some apr
           target_implied_apr := some bands.long_exit
           expected_move := some move
           expected_apy := some (move * sensitivity)
           risk_score := some 0.5
           max_position_size := some (min (market.liquidity * 0.03) 250000)
           recommended_leverage := some 1
           dca_step := some bands.dca_step
           max_adds := some bands.max_adds }
  else if bands.short_entry ≤ apr then
    let move := max 0 (apr - bands.short_exit)
    let sensitivity : ℚ := 4
    some { strategy_type := some "implied_apr_bands_short"
           position_type := some "short"
           current_implied_apr := some apr
           target_implied_apr := some bands.short_exit
           expected_move := some move
           expected_apy := some (move * sensitivity)
           risk_score := some 0.6
           max_position_size := some (min (market.liquidity * 0.03) 250000)
           recommended_leverage := some 1
           dca_step := some bands.dca_step
           max_adds := some bands.max_adds }
  else none

/-! ## Strategy Manager (`strats.py` lines 493–682) -/

/-- `self.max_total_exposure = 5000000`. -/
def max_total_exposure : ℚ := 5000000

/-- `self.max_positions_per_strategy = 3`. -/
def max_positions_per_strategy : ℕ := 3

/-- The `min_expected_returns` dict in `should_execute_strategy` together with
its `.get(strategy_type, 0.10)` default. -/
def min_expected_returns : StrategyType → ℚ
  | .SIMPLE_DIRECTIONAL => 0.005
  | .IMPLIED_APR_BANDS => 0.01
  | _ => 0.10

/-- The `max_risk_scores` dict in `should_execute_strategy` together with its
`.get(strategy_type, 0.6)` default. -/
def max_risk_scores : StrategyType → ℚ
  | .SIMPLE_DIRECTIONAL => 0.5
  | .IMPLIED_APR_BANDS => 0.7
  | _ => 0.6

/-- `sum(p.size * p.leverage for p in self.active_positions)`. -/
def totalExposure (active_positions : List Position) : ℚ :=
  (active_positions.map (fun p => p.size * p.leverage)).sum

/-- `StrategyManager.should_execute_strategy`.  The two direct subscripts
`opportunity["strategy"]` and `opportunity["max_position_size"]` raise
`KeyError` when the key is absent; every other field is read with `.get` and
a default. -/
def should_execute_strategy (active_positions : List Position)
    (opportunity : Opportunity) : Except String Bool :=
  match opportunity.strategy with
  | none => .error "KeyError: strategy"
  | some strategy_type =>
    let current_positions := active_positions.filter (fun p => p.strategy = strategy_type)
    if max_positions_per_strategy ≤ current_positions.length then .ok false
    else
      match opportunity.max_position_size with
      | none => .error "KeyError: max_position_size"
      | some mps =>
        let new_exposure := mps * opportunity.recommended_leverage.getD 1
        if max_total_exposure < totalExposure active_positions + new_exposure then .ok false
        else
          if opportunity.expected_apy.getD 0 < min_expected_returns strategy_type then .ok false
          else
            if max_risk_scores strategy_type < opportunity.risk_score.getD 1 then .ok false
            else .ok true

/-- The tagging `opportunity["strategy"] = strategy_type` performed by
`StrategyManager.evaluate_all_strategies` on each emitted opportunity. -/
def setStrategy (o : Opportunity) (st : StrategyType) : Opportunity :=
  { o with strategy := some st }

/-- `StrategyManager.execute_strategy` (the actual trade execution is a TODO in
the source; the function computes sizing, appends a `Position`, and returns it).
The division `position_size / recommended_leverage` raises `ZeroDivisionError`
when the leverage is zero. -/
def execute_strategy (opportunity : Opportunity) (market : MarketCondition)
    (now : ℚ) (active_positions : List Position) :
    Except String (List Position × Position) :=
  match opportunity.strategy with
  | none => .error "KeyError: strategy"
  | some strategy_type =>
    match opportunity.max_position_size with
    | none => .error "KeyError: max_position_size"
    | some base_position_size =>
      let risk_adjustment := 1 - opportunity.risk_score.getD 0.5
      let position_size := base_position_size * risk_adjustment * 0.5
      let lev := opportunity.recommended_leverage.getD 1
      if lev = 0 then .error "ZeroDivisionError"
      else
        let position : Position :=
          { strategy := strategy_type
            symbol := market.symbol
            position_type := opportunity.position_type.getD "long"
            size := position_size
            entry_implied_apr := market.boros_implied_apr
            entry_timestamp := now
            collateral_used := position_size / lev
            leverage := lev
            health_factor := 1.5
            expected_apy := opportunity.expected_apy.getD 0
            stop_loss := opportunity.stop_loss
            take_profit := opportunity.take_profit }
        .ok (active_positions ++ [position], position)

/-- Result dict of `StrategyManager.get_portfolio_summary`.  The empty-portfolio
branch returns a dict with only the first three keys; that is modelled by
`none` in the remaining fields. -/
structure PortfolioSummary where
  total_positions : ℕ
  total_exposure : ℚ
  total_collateral : ℚ
  weighted_expected_apy : Option ℚ
  strategies_breakdown : List (String × ℚ)
  utilization : Option ℚ
deriving DecidableEq

/-- The per-strategy size breakdown loop in `get_portfolio_summary`. -/
def strategiesBreakdown (active_positions : List Position) : List (String × ℚ) :=
  active_positions.foldl
    (fun acc p => dictSet acc p.strategy.value (dictGet acc p.strategy.value 0 + p.size)) []

/-- `StrategyManager.get_portfolio_summary`.  The size-weighted expected return
divides by `sum(p.size for p in self.active_positions)`, which raises
`ZeroDivisionError` when the sizes sum to zero. -/
def get_portfolio_summary (active_positions : List Position) :
    Except String PortfolioSummary :=
  match active_positions with
  | [] => .ok ⟨0, 0, 0, none, [], none⟩
  | _ =>
    let total_exposure := totalExposure active_positions
    let total_collateral := (active_positions.map (fun p => p.collateral_used)).sum
    let size_sum := (active_positions.map (fun p => p.size)).sum
    if size_sum = 0 then .error "ZeroDivisionError"
    else
      let weighted_apy := (active_positions.map (fun p => p.expected_apy * p.size)).sum / size_sum
      .ok ⟨active_positions.length, total_exposure, total_collateral,
           some weighted_apy, strategiesBreakdown active_positions,
           some (total_exposure / max_total_exposure)⟩

/-! ## Alert Gate (`strategy_bot.py` lines 157–218) -/

/-- The in-memory `self.last_alerts` cooldown map (key → last alert time). -/
abbrev AlertMap := List (String × ℚ)

/-- The action-aware cooldown key built by both `should_send_alert` and
`send_alert`: `f"{symbol}_{strategy_type}"` extended with `f"_{action_part}"`
when the upper-cased action is non-empty. -/
def alertKey (symbol strategy_type : String) (action : Option String) : String :=
  let action_part := pyUpper (action.getD "")
  symbol ++ "_" ++ strategy_type ++ (if action_part = "" then "" else "_" ++ action_part)

/-- `StrategyAlertBot.should_send_alert`: exit actions always pass; otherwise
the elapsed time since the key's last alert must exceed the cooldown. -/
def should_send_alert (last_alerts : AlertMap) (now alert_cooldown : ℚ)
    (symbol strategy_type : String) (action : Option String) : Bool :=
  let action_part := pyUpper (action.getD "")
  let alert_key := alertKey symbol strategy_type action
  if pyStartsWith action_part "EXIT" then true
  else decide (alert_cooldown < now - dictGet last_alerts alert_key 0)

/-- The cooldown-map update performed at the top of `StrategyAlertBot.send_alert`:
`self.last_alerts[alert_key] = time.time()`. -/
def send_alert_update (last_alerts : AlertMap) (symbol strategy_type : String)
    (action : Option String) (now : ℚ) : AlertMap :=
  dictSet last_alerts (alertKey symbol strategy_type action) now

/-! ## Band-override configuration handling (`StrategyManager.__init__`, lines 496–523)

The `config` argument is an arbitrary (JSON-like) Python value, so the values
of the config dict are modelled by an untyped value type.  At this level a band
dict is an association list of string keys to values, and the initial
`bands_by_symbol` / `default_bands` of `ImpliedAPRBandStrategy` are the dict
forms of the typed configs above. -/

/-- Untyped Python/JSON-like value (the shapes a config value can take). -/
inductive CfgVal
  | dict (entries : List (String × CfgVal))
  | num (q : ℚ)
  | str (s : String)
  | null
  | list (xs : List CfgVal)
  | bool (b : Bool)

/-- Python truthiness of a `CfgVal`. -/
def CfgVal.truthy : CfgVal → Bool
  | .dict es => !es.isEmpty
  | .num q => decide (q ≠ 0)
  | .str s => !s.isEmpty
  | .null => false
  | .list xs => !xs.isEmpty
  | .bool b => b

/-- `isinstance(v, dict)`. -/
def CfgVal.isDict : CfgVal → Bool
  | .dict _ => true
  | _ => false

/-- A band dict at the untyped level. -/
abbrev BandDict := List (String × CfgVal)

/-- The dict form of a `BandConfig` (the literal dicts in
`ImpliedAPRBandStrategy.__init__`). -/
def BandConfig.toDict (b : BandConfig) : BandDict :=
  [("long_entry", .num b.long_entry), ("long_exit", .num b.long_exit),
   ("short_entry", .num b.short_entry), ("short_exit", .num b.short_exit),
   ("dca_step", .num b.dca_step), ("max_adds", .num (b.max_adds : ℚ))]

/-- Initial `bands_by_symbol` at the dict level. -/
def bands_by_symbol₀d : List (String × BandDict) :=
  [("ETHUSDT", BandConfig.toDict ⟨0.0600, 0.0685, 0.0800, 0.0680, 0.0025, 3⟩)]

/-- `{**a, **b}`: dict-literal merge, later keys winning. -/
def dictMerge (a b : List (String × CfgVal)) : List (String × CfgVal) :=
  b.foldl (fun acc kv => dictSet acc kv.1 kv.2) a

/-- `bands_cfg.items()`: raises `AttributeError` on a non-dict. -/
def pyItems : CfgVal → Except String (List (String × CfgVal))
  | .dict es => .ok es
  | _ => .error "AttributeError: items"

/-- `{**band}`-style mapping unpacking: raises `TypeError` on a non-mapping. -/
def asDict : CfgVal → Except String (List (String × CfgVal))
  | .dict es => .ok es
  | _ => .error "TypeError: mapping unpacking"

/-- One iteration of the override loop: `if not isinstance(band, dict): continue`
else `bands_by_symbol[symbol] = {**default_bands, **band}`. -/
def override_step (m : List (String × BandDict)) (kv : String × CfgVal) :
    Except String (List (String × BandDict)) :=
  if kv.2.isDict then
    match asDict kv.2 with
    | .error e => .error e
    | .ok band => .ok (dictSet m kv.1 (dictMerge (BandConfig.toDict default_bands) band))
  else .ok m

/-- The override `for` loop (an uncaught exception aborts the loop). -/
def apply_overrides : List (String × CfgVal) → List (String × BandDict) →
    Except String (List (String × BandDict))
  | [], m => .ok m
  | kv :: rest, m =>
      match override_step m kv with
      | .error e => .error e
      | .ok m' => apply_overrides rest m'

/-- Body of the `try` block in `StrategyManager.__init__` applied to
`bands_cfg = config.get("implied_apr_bands")`: iterate the override entries,
skip non-dict bands, and merge dict bands over the defaults. -/
def apply_bands_config (bands_cfg : CfgVal) (m0 : List (String × BandDict)) :
    Except String (List (String × BandDict)) :=
  if bands_cfg.truthy then
    if bands_cfg.isDict then
      match pyItems bands_cfg with
      | .error e => .error e
      | .ok entries => apply_overrides entries m0
    else .ok m0
  else .ok m0

/-- The `try` body of `StrategyManager.__init__` including the
`config.get("implied_apr_bands")` read (a missing key gives `None`, falsy). -/
def init_bands_e (config : List (String × CfgVal)) :
    Except String (List (String × BandDict)) :=
  match dictGetOpt config "implied_apr_bands" with
  | none => .ok bands_by_symbol₀d
  | some v => apply_bands_config v bands_by_symbol₀d

/-- `StrategyManager.__init__`'s resulting `bands_by_symbol`: the
`except Exception: pass` swallows any error and keeps the defaults. -/
def strategy_manager_bands (config : List (String × CfgVal)) : List (String × BandDict) :=
  match init_bands_e config with
  | .ok m => m
  | .error _ => bands_by_symbol₀d

/-- `get_bands` at the dict level (`self.bands_by_symbol.get(symbol, self.default_bands)`). -/
def get_bands_d (bands_by_symbol : List (String × BandDict)) (symbol : String) : BandDict :=
  dictGet bands_by_symbol symbol (BandConfig.toDict default_bands)

/-! ## Concrete scenario inputs -/

/-- Scenario A snapshot: implied 0.05, reference 0.09 (spread +0.04). -/
def market_A : MarketCondition := ⟨"ETHUSDT", 0.09, 0.05, 0.04, 0.3, 1000000, 14400⟩

/-- Scenario B snapshot: implied 0.07, reference 0.071 (spread +0.001). -/
def market_B : MarketCondition := ⟨"ETHUSDT", 0.071, 0.07, 0.001, 0.3, 1000000, 14400⟩

/-- Scenario C snapshot: implied 0.05 on a symbol with no configured bands. -/
def market_C : MarketCondition := ⟨"BTCUSDT", 0.07, 0.05, 0.02, 0.3, 1000000, 14400⟩

/-- Scenario D snapshot: implied 0.065, strictly between the default bands. -/
def market_D : MarketCondition := ⟨"BTCUSDT", 0.07, 0.065, 0.005, 0.3, 1000000, 14400⟩

/-! ## Claim theorems -/

/-- Claim C2: single-step conformance of `SimpleDirectionalStrategy.evaluate_opportunity`
to the transition table with spread `s = cex_funding_rate - boros_implied_apr`:
from state NONE it enters long (storing LONG) when `|s| ≥ 0.005` and `s > 0`,
enters short (storing SHORT) when `|s| ≥ 0.005` and `s < 0`, and emits nothing
when `|s| < 0.005`; from state LONG (resp. SHORT) it exits (storing NONE)
exactly when `|s| ≤ 0.002`; scenario A yields ENTER_LONG with new state LONG
and scenario B yields EXIT_LONG with new state NONE. -/
theorem C2_simple_directional_step :
    (∀ (m : MarketCondition) (st : Store),
      (dictGet st m.symbol "NONE" = "NONE" →
        (min_spread ≤ |m.cex_funding_rate - m.boros_implied_apr| →
          0 < m.cex_funding_rate - m.boros_implied_apr →
          (∃ o, (evaluate_core m st).1 = some o ∧ o.action = some "ENTER_LONG") ∧
          dictGet (evaluate_core m st).2.1 m.symbol "NONE" = "LONG") ∧
        (min_spread ≤ |m.cex_funding_rate - m.boros_implied_apr| →
          m.cex_funding_rate - m.boros_implied_apr < 0 →
          (∃ o, (evaluate_core m st).1 = some o ∧ o.action = some "ENTER_SHORT") ∧
          dictGet (evaluate_core m st).2.1 m.symbol "NONE" = "SHORT") ∧
        (|m.cex_funding_rate - m.boros_implied_apr| < min_spread →
          (evaluate_core m st).1 = none)) ∧
      (dictGet st m.symbol "NONE" = "LONG" →
        (|m.cex_funding_rate - m.boros_implied_apr| ≤ exit_threshold →
          (∃ o, (evaluate_core m st).1 = some o ∧ o.action = some "EXIT_LONG") ∧
          dictGet (evaluate_core m st).2.1 m.symbol "NONE" = "NONE") ∧
        (exit_threshold < |m.cex_funding_rate - m.boros_implied_apr| →
          (evaluate_core m st).1 = none)) ∧
      (dictGet st m.symbol "NONE" = "SHORT" →
        (|m.cex_funding_rate - m.boros_implied_apr| ≤ exit_threshold →
          (∃ o, (evaluate_core m st).1 = some o ∧ o.action = some "EXIT_SHORT") ∧
          dictGet (evaluate_core m st).2.1 m.symbol "NONE" = "NONE") ∧
        (exit_threshold < |m.cex_funding_rate - m.boros_implied_apr| →
          (evaluate_core m st).1 = none))) ∧
    ((∃ o, (evaluate_core market_A []).1 = some o ∧ o.action = some "ENTER_LONG") ∧
      dictGet (evaluate_core market_A []).2.1 "ETHUSDT" "NONE" = "LONG") ∧
    ((∃ o, (evaluate_core market_B [("ETHUSDT", "LONG")]).1 = some o ∧
        o.action = some "EXIT_LONG") ∧
      dictGet (evaluate_core market_B [("ETHUSDT", "LONG")]).2.1 "ETHUSDT" "NONE" = "NONE") := by
  have hA : evaluate_core market_A [] =
      (some (enterOpp "ENTER_LONG" "LONG" (1/25) (1/25)), [("ETHUSDT", "LONG")], true) := by
    norm_num [evaluate_core, market_A, dictGet, dictSet, min_spread, exit_threshold, abs_of_pos]
  have hB : evaluate_core market_B [("ETHUSDT", "LONG")] =
      (some (exitOpp "LONG" (1/1000) (1/1000)), [("ETHUSDT", "NONE")], true) := by
    norm_num [evaluate_core, market_B, dictGet, dictSet, min_spread, exit_threshold, abs_of_pos]
    decide
  refine ⟨fun m st => ⟨fun h0 => ⟨fun hs hpos => ?_, fun hs hneg => ?_, fun hlt => ?_⟩,
      fun h0 => ⟨fun hx => ?_, fun hgt => ?_⟩, fun h0 => ⟨fun hx => ?_, fun hgt => ?_⟩⟩,
      ⟨⟨_, by rw [hA], rfl⟩, by rw [hA]; rfl⟩,
      ⟨⟨_, by rw [hB], rfl⟩, by rw [hB]; rfl⟩⟩
  · have : evaluate_core m st =
        (some (enterOpp "ENTER_LONG" "LONG" (m.cex_funding_rate - m.boros_implied_apr)
          |m.cex_funding_rate - m.boros_implied_apr|), dictSet st m.symbol "LONG", true) := by
      simp only [evaluate_core]
      rw [if_pos h0, if_pos hs, if_pos hpos]
    rw [this]
    exact ⟨⟨_, rfl, rfl⟩, dictGet_dictSet_self st m.symbol "LONG" "NONE"⟩
  · have : evaluate_core m st =
        (some (enterOpp "ENTER_SHORT" "SHORT" (m.cex_funding_rate - m.boros_implied_apr)
          |m.cex_funding_rate - m.boros_implied_apr|), dictSet st m.symbol "SHORT", true) := by
      simp only [evaluate_core]
      rw [if_pos h0, if_pos hs, if_neg (by exact not_lt.mpr hneg.le)]
    rw [this]
    exact ⟨⟨_, rfl, rfl⟩, dictGet_dictSet_self st m.symbol "SHORT" "NONE"⟩
  · simp only [evaluate_core]
    rw [if_pos h0, if_neg (not_le.mpr hlt)]
  · have : evaluate_core m st =
        (some (exitOpp "LONG" (m.cex_funding_rate - m.boros_implied_apr)
          |m.cex_funding_rate - m.boros_implied_apr|), dictSet st m.symbol "NONE", true) := by
      simp only [evaluate_core]
      rw [if_neg (by rw [h0]; simp), if_pos hx, h0]
    rw [this]
    exact ⟨⟨_, rfl, rfl⟩, dictGet_dictSet_self st m.symbol "NONE" "NONE"⟩
  · simp only [evaluate_core]
    rw [if_neg (by rw [h0]; simp), if_neg (not_le.mpr hgt)]
  · have : evaluate_core m st =
        (some (exitOpp "SHORT" (m.cex_funding_rate - m.boros_implied_apr)
          |m.cex_funding_rate - m.boros_implied_apr|), dictSet st m.symbol "NONE", true) := by
      simp only [evaluate_core]
      rw [if_neg (by rw [h0]; simp), if_pos hx, h0]
    rw [this]
    exact ⟨⟨_, rfl, rfl⟩, dictGet_dictSet_self st m.symbol "NONE" "NONE"⟩
  · simp only [evaluate_core]
    rw [if_neg (by rw [h0]; simp), if_neg (not_le.mpr hgt)]

/-- Witness for C2: the general table applied to the scenario-A snapshot in
state NONE produces ENTER_LONG and stores LONG. -/
theorem C2_simple_directional_step_witness :
    (∃ o, (evaluate_core market_A []).1 = some o ∧ o.action = some "ENTER_LONG") ∧
    dictGet (evaluate_core market_A []).2.1 "ETHUSDT" "NONE" = "LONG" := by
  have h := (C2_simple_directional_step.1 market_A []).1 rfl
  exact h.1 (by norm_num [market_A, min_spread, abs_of_pos]) (by norm_num [market_A])

theorem pyStartsWith_EXIT_append (cp : String) :
    pyStartsWith ("EXIT_" ++ cp) "EXIT" = true := by
  show strPrefixOf "EXIT".data ("EXIT_" ++ cp).data = true
  have h : ("EXIT_" ++ cp).data = "EXIT".data ++ ('_' :: cp.data) := by
    rw [String.data_append]
    rfl
  rw [h]
  exact strPrefixOf_append _ _

/-- Claim C9: when `evaluate_opportunity` returns no opportunity it performs no
store write and leaves the persisted mapping exactly unchanged; a write occurs
only in a call that returns an `ENTER_*` or `EXIT_*` opportunity. -/
theorem C9_no_signal_no_write (m : MarketCondition) (st : Store) :
    ((evaluate_core m st).1 = none →
      (evaluate_core m st).2.1 = st ∧ (evaluate_core m st).2.2 = false) ∧
    ((evaluate_core m st).2.2 = true →
      ∃ o a, (evaluate_core m st).1 = some o ∧ o.action = some a ∧
        (pyStartsWith a "ENTER" = true ∨ pyStartsWith a "EXIT" = true)) := by
  simp only [evaluate_core]
  split_ifs with h0 hs hp hx
  · exact ⟨fun h => by simp at h, fun _ => ⟨_, "ENTER_LONG", rfl, rfl, Or.inl (by decide)⟩⟩
  · exact ⟨fun h => by simp at h, fun _ => ⟨_, "ENTER_SHORT", rfl, rfl, Or.inl (by decide)⟩⟩
  · exact ⟨fun _ => ⟨rfl, rfl⟩, fun h => by simp at h⟩
  · exact ⟨fun h => by simp at h,
      fun _ => ⟨_, _, rfl, rfl, Or.inr (pyStartsWith_EXIT_append _)⟩⟩
  · exact ⟨fun _ => ⟨rfl, rfl⟩, fun h => by simp at h⟩

/-- Witness for C9: a snapshot with zero spread in state NONE emits nothing and
leaves the (empty) store untouched with no write. -/
theorem C9_no_signal_no_write_witness :
    (evaluate_core ⟨"ETHUSDT", 0.07, 0.07, 0, 0.3, 1000000, 14400⟩ []).2.1 = [] ∧
    (evaluate_core ⟨"ETHUSDT", 0.07, 0.07, 0, 0.3, 1000000, 14400⟩ []).2.2 = false := by
  refine (C9_no_signal_no_write ⟨"ETHUSDT", 0.07, 0.07, 0, 0.3, 1000000, 14400⟩ []).1 ?_
  norm_num [evaluate_core, dictGet, min_spread]

/-- Claim C7 as stated is false: a store file whose content is not valid JSON
does not make `evaluate_opportunity` behave as if the store were empty — only
`FileNotFoundError` is caught, so `json.load` raises and the evaluation fails. -/
theorem C7_counterexample :
    evaluate_opportunity_file market_A FileState.invalidJson =
      .error "json.JSONDecodeError" := rfl

/-- Claim C7 amended: a missing store file is treated as empty — the evaluation
completes and returns exactly what it returns on the empty store, in which every
symbol's prior state is NONE; a file with invalid JSON content instead raises. -/
theorem C7_missing_file_as_empty (m : MarketCondition) :
    (∃ r, evaluate_opportunity_file m FileState.missing = .ok r ∧
      r.1 = (evaluate_core m []).1) ∧
    (∀ sym, dictGet ([] : Store) sym "NONE" = "NONE") :=
  ⟨⟨_, rfl, rfl⟩, fun _ => rfl⟩

/-- Claim C4: band-strategy evaluation — long opportunity (target `long_exit`,
`expected_move = max 0 (long_exit - apr)`, return `move * 4`, risk 0.5) when
`apr ≤ long_entry`; short analogue (risk 0.6) when `apr ≥ short_entry`;
no opportunity strictly between the bands; scenario C gives a long with move
0.018 and return 0.072, scenario D gives no opportunity. -/
theorem C4_band_evaluation :
    (∀ (bbs : List (String × BandConfig)) (m : MarketCondition),
      (m.boros_implied_apr ≤ (get_bands bbs m.symbol).long_entry →
        ∃ o, evaluate_band bbs m = some o ∧ o.position_type = some "long" ∧
          o.target_implied_apr = some (get_bands bbs m.symbol).long_exit ∧
          o.expected_move = some (max 0 ((get_bands bbs m.symbol).long_exit - m.boros_implied_apr)) ∧
          o.expected_apy = some (max 0 ((get_bands bbs m.symbol).long_exit - m.boros_implied_apr) * 4) ∧
          o.risk_score = some 0.5) ∧
      ((get_bands bbs m.symbol).long_entry < m.boros_implied_apr →
        (get_bands bbs m.symbol).short_entry ≤ m.boros_implied_apr →
        ∃ o, evaluate_band bbs m = some o ∧ o.position_type = some "short" ∧
          o.target_implied_apr = some (get_bands bbs m.symbol).short_exit ∧
          o.expected_move = some (max 0 (m.boros_implied_apr - (get_bands bbs m.symbol).short_exit)) ∧
          o.expected_apy = some (max 0 (m.boros_implied_apr - (get_bands bbs m.symbol).short_exit) * 4) ∧
          o.risk_score = some 0.6) ∧
      ((get_bands bbs m.symbol).long_entry < m.boros_implied_apr →
        m.boros_implied_apr < (get_bands bbs m.symbol).short_entry →
        evaluate_band bbs m = none)) ∧
    (∃ o, evaluate_band bands_by_symbol₀ market_C = some o ∧
      o.position_type = some "long" ∧ o.expected_move = some 0.018 ∧
      o.expected_apy = some 0.072) ∧
    evaluate_band bands_by_symbol₀ market_D = none := by
  have hgen : ∀ (bbs : List (String × BandConfig)) (m : MarketCondition),
      (m.boros_implied_apr ≤ (get_bands bbs m.symbol).long_entry →
        ∃ o, evaluate_band bbs m = some o ∧ o.position_type = some "long" ∧
          o.target_implied_apr = some (get_bands bbs m.symbol).long_exit ∧
          o.expected_move = some (max 0 ((get_bands bbs m.symbol).long_exit - m.boros_implied_apr)) ∧
          o.expected_apy = some (max 0 ((get_bands bbs m.symbol).long_exit - m.boros_implied_apr) * 4) ∧
          o.risk_score = some 0.5) ∧
      ((get_bands bbs m.symbol).long_entry < m.boros_implied_apr →
        (get_bands bbs m.symbol).short_entry ≤ m.boros_implied_apr →
        ∃ o, evaluate_band bbs m = some o ∧ o.position_type = some "short" ∧
          o.target_implied_apr = some (get_bands bbs m.symbol).short_exit ∧
          o.expected_move = some (max 0 (m.boros_implied_apr - (get_bands bbs m.symbol).short_exit)) ∧
          o.expected_apy = some (max 0 (m.boros_implied_apr - (get_bands bbs m.symbol).short_exit) * 4) ∧
          o.risk_score = some 0.6) ∧
      ((get_bands bbs m.symbol).long_entry < m.boros_implied_apr →
        m.boros_implied_apr < (get_bands bbs m.symbol).short_entry →
        evaluate_band bbs m = none) := by
    intro bbs m
    refine ⟨fun h1 => ?_, fun h1 h2 => ?_, fun h1 h2 => ?_⟩
    · simp only [evaluate_band]
      rw [if_pos h1]
      exact ⟨_, rfl, rfl, rfl, rfl, rfl, rfl⟩
    · simp only [evaluate_band]
      rw [if_neg (not_le.mpr h1), if_pos h2]
      exact ⟨_, rfl, rfl, rfl, rfl, rfl, rfl⟩
    · simp only [evaluate_band]
      rw [if_neg (not_le.mpr h1), if_neg (not_le.mpr h2)]
  have hgb : get_bands bands_by_symbol₀ "BTCUSDT" = default_bands := by
    simp [get_bands, dictGet, bands_by_symbol₀]
  refine ⟨hgen, ?_, ?_⟩
  · obtain ⟨o, ho, hpt, _, hmv, hapy, _⟩ :=
      (hgen bands_by_symbol₀ market_C).1
        (by show (0.05 : ℚ) ≤ _; rw [show market_C.symbol = "BTCUSDT" from rfl, hgb]; norm_num [default_bands])
    refine ⟨o, ho, hpt, ?_, ?_⟩
    · rw [hmv, show market_C.symbol = "BTCUSDT" from rfl, hgb]
      rw [show max (0:ℚ) (default_bands.long_exit - market_C.boros_implied_apr) = 0.018 by
        rw [max_eq_right] <;> norm_num [default_bands, market_C]]
    · rw [hapy, show market_C.symbol = "BTCUSDT" from rfl, hgb]
      rw [show max (0:ℚ) (default_bands.long_exit - market_C.boros_implied_apr) = 0.018 by
        rw [max_eq_right] <;> norm_num [default_bands, market_C]]
      norm_num
  · refine (hgen bands_by_symbol₀ market_D).2.2 ?_ ?_
    · rw [show market_D.symbol = "BTCUSDT" from rfl, hgb]
      norm_num [default_bands, market_D]
    · rw [show market_D.symbol = "BTCUSDT" from rfl, hgb]
      norm_num [default_bands, market_D]

/-- Witness for C4: the general long-entry case applied to the scenario-C
snapshot with the strategy's initial band table. -/
theorem C4_band_evaluation_witness :
    ∃ o, evaluate_band bands_by_symbol₀ market_C = some o ∧
      o.position_type = some "long" ∧ o.risk_score = some 0.5 := by
  obtain ⟨o, ho, hpt, _, _, _, hrs⟩ :=
    (C4_band_evaluation.1 bands_by_symbol₀ market_C).1
      (by simp [get_bands, dictGet, bands_by_symbol₀, market_C, default_bands]; norm_num)
  exact ⟨o, ho, hpt, hrs⟩

/-- Claim C5: the exposure cap is boundary-inclusive — with the position-count,
minimum-return and risk-score checks passing, `should_execute_strategy` rejects
when current exposure plus `max_position_size * recommended_leverage` exceeds
the $5,000,000 ceiling and accepts when it equals the ceiling exactly. -/
theorem C5_exposure_cap (active_positions : List Position) (opportunity : Opportunity)
    (st : StrategyType) (mps : ℚ)
    (hst : opportunity.strategy = some st)
    (hmps : opportunity.max_position_size = some mps)
    (hcount : (active_positions.filter (fun p => p.strategy = st)).length <
      max_positions_per_strategy)
    (hret : min_expected_returns st ≤ opportunity.expected_apy.getD 0)
    (hrisk : opportunity.risk_score.getD 1 ≤ max_risk_scores st) :
    (max_total_exposure <
        totalExposure active_positions + mps * opportunity.recommended_leverage.getD 1 →
      should_execute_strategy active_positions opportunity = .ok false) ∧
    (totalExposure active_positions + mps * opportunity.recommended_leverage.getD 1 =
        max_total_exposure →
      should_execute_strategy active_positions opportunity = .ok true) := by
  constructor
  · intro hover
    simp only [should_execute_strategy, hst, hmps]
    rw [if_neg (not_le.mpr hcount), if_pos hover]
  · intro heq
    simp only [should_execute_strategy, hst, hmps]
    rw [if_neg (not_le.mpr hcount), if_neg (by rw [heq]; exact lt_irrefl _),
        if_neg (not_lt.mpr hret), if_neg (not_lt.mpr hrisk)]

/-- Witness for C5: an opportunity whose new exposure lands exactly on the
$5,000,000 ceiling (empty book) is accepted. -/
theorem C5_exposure_cap_witness :
    should_execute_strategy []
      { strategy := some StrategyType.SIMPLE_DIRECTIONAL,
        max_position_size := some 5000000, expected_apy := some 1,
        risk_score := some 0 } = .ok true := by
  refine (C5_exposure_cap [] _ StrategyType.SIMPLE_DIRECTIONAL 5000000 rfl rfl
    (by simp [max_positions_per_strategy]) ?_ ?_).2 ?_
  · norm_num [min_expected_returns]
  · norm_num [max_risk_scores]
  · norm_num [totalExposure, max_total_exposure]

/-- Claim C6 as stated is false: `should_execute_strategy` subscripts
`opportunity["max_position_size"]` directly, so an opportunity lacking that key
raises `KeyError` instead of returning a boolean. -/
theorem C6_counterexample :
    should_execute_strategy [] { strategy := some StrategyType.SIMPLE_DIRECTIONAL } =
      .error "KeyError: max_position_size" := rfl

/-- Claim C6 amended: provided the two directly-subscripted keys `strategy` and
`max_position_size` are present, `should_execute_strategy` returns a boolean
without raising for every opportunity; a missing `risk_score` defaults to 1.0
(the least favorable value, so the opportunity is rejected) and a missing
expected return defaults to 0 (rejected by the minimum-return check). -/
theorem C6_missing_fields_conservative (active_positions : List Position)
    (opportunity : Opportunity) (st : StrategyType) (mps : ℚ)
    (hst : opportunity.strategy = some st)
    (hmps : opportunity.max_position_size = some mps) :
    (∃ b, should_execute_strategy active_positions opportunity = .ok b) ∧
    (opportunity.risk_score = none →
      should_execute_strategy active_positions opportunity = .ok false) ∧
    (opportunity.expected_apy = none →
      should_execute_strategy active_positions opportunity = .ok false) := by
  have hmin : 0 < min_expected_returns st := by
    cases st <;> norm_num [min_expected_returns]
  have hmax : max_risk_scores st < 1 := by
    cases st <;> norm_num [max_risk_scores]
  refine ⟨?_, ?_, ?_⟩
  · simp only [should_execute_strategy, hst, hmps]
    split_ifs <;> exact ⟨_, rfl⟩
  · intro hrs
    simp only [should_execute_strategy, hst, hmps, hrs]
    split_ifs with h1 h2 h3 h4
    · rfl
    · rfl
    · rfl
    · rfl
    · exact absurd hmax (by simpa using h4)
  · intro hea
    simp only [should_execute_strategy, hst, hmps, hea]
    split_ifs with h1 h2 h3 h4
    · rfl
    · rfl
    · rfl
    · rfl
    · exact absurd hmin (by simpa using h3)

/-- Witness for C6 (amended): an opportunity with no `risk_score` is rejected
even though every other check passes. -/
theorem C6_missing_fields_conservative_witness :
    should_execute_strategy []
      { strategy := some StrategyType.SIMPLE_DIRECTIONAL,
        max_position_size := some 1000, expected_apy := some 1 } = .ok false :=
  (C6_missing_fields_conservative [] _ StrategyType.SIMPLE_DIRECTIONAL 1000
    rfl rfl).2.1 rfl

/-- Claim C3: exit alerts are never withheld — `should_send_alert` returns true
for every cooldown map, time and cooldown window whenever the action begins with
"EXIT"; in particular an EXIT_LONG for (SYM, simple_directional) fires an
instant after an ENTER_LONG for the same pair was recorded. -/
theorem C3_exit_alerts_bypass :
    (∀ (last_alerts : AlertMap) (now alert_cooldown : ℚ)
        (symbol strategy_type act : String),
      pyStartsWith act "EXIT" = true →
      should_send_alert last_alerts now alert_cooldown symbol strategy_type
        (some act) = true) ∧
    (∀ t : ℚ,
      should_send_alert
        (send_alert_update [] "SYM" "simple_directional" (some "ENTER_LONG") t)
        t 1800 "SYM" "simple_directional" (some "EXIT_LONG") = true) := by
  have hup : ∀ act : String, pyStartsWith act "EXIT" = true →
      pyStartsWith (pyUpper act) "EXIT" = true := by
    intro act h
    obtain ⟨t, ht⟩ := strPrefixOf_exists h
    show strPrefixOf "EXIT".data (pyUpper act).data = true
    have hd : (pyUpper act).data = "EXIT".data ++ t.map Char.toUpper := by
      show act.data.map Char.toUpper = _
      rw [ht, List.map_append]
      rfl
    rw [hd]
    exact strPrefixOf_append _ _
  have hgen : ∀ (last_alerts : AlertMap) (now alert_cooldown : ℚ)
      (symbol strategy_type act : String),
      pyStartsWith act "EXIT" = true →
      should_send_alert last_alerts now alert_cooldown symbol strategy_type
        (some act) = true := by
    intro la now cd sym strat act h
    simp [should_send_alert, hup act h]
  exact ⟨hgen, fun t => hgen _ _ _ _ _ _ (by decide)⟩

/-- Witness for C3: the exit alert fires with the entry's cooldown timestamp
recorded an instant before, at a concrete time. -/
theorem C3_exit_alerts_bypass_witness :
    should_send_alert
      (send_alert_update [] "SYM" "simple_directional" (some "ENTER_LONG") 1000)
      1000 1800 "SYM" "simple_directional" (some "EXIT_LONG") = true :=
  C3_exit_alerts_bypass.1 _ 1000 1800 "SYM" "simple_directional" "EXIT_LONG"
    (by decide)

/-- Claim C10: `get_portfolio_summary` divides by the sum of position sizes
without a guard, so any non-empty book whose sizes sum to zero raises
`ZeroDivisionError`; such a book is reachable, since executing a directional
EXIT opportunity (which carries `max_position_size = 0`) appends a position of
size 0. -/
theorem C10_portfolio_summary_div_zero :
    (∀ ps : List Position, ps ≠ [] → (ps.map (fun p => p.size)).sum = 0 →
      get_portfolio_summary ps = .error "ZeroDivisionError") ∧
    (∃ o p, (evaluate_core market_B [("ETHUSDT", "LONG")]).1 = some o ∧
      o.max_position_size = some 0 ∧
      execute_strategy (setStrategy o StrategyType.SIMPLE_DIRECTIONAL) market_B 0 [] =
        .ok ([p], p) ∧
      p.size = 0 ∧
      get_portfolio_summary [p] = .error "ZeroDivisionError") := by
  have hzero : ∀ ps : List Position, ps ≠ [] → (ps.map (fun p => p.size)).sum = 0 →
      get_portfolio_summary ps = .error "ZeroDivisionError" := by
    intro ps hne hsum
    match ps, hne with
    | q :: rest, _ =>
        simp only [get_portfolio_summary]
        rw [if_pos hsum]
  have hB : (evaluate_core market_B [("ETHUSDT", "LONG")]).1 =
      some (exitOpp "LONG" (1/1000) (1/1000)) := by
    norm_num [evaluate_core, market_B, dictGet, dictSet, min_spread, exit_threshold,
      abs_of_pos]
    rw [if_neg (by decide : ¬("LONG" = "NONE"))]
  have hlow : pyLower "LONG" = "long" := by decide
  have hexec : execute_strategy
      (setStrategy (exitOpp "LONG" (1/1000) (1/1000)) StrategyType.SIMPLE_DIRECTIONAL)
      market_B 0 [] =
      .ok ([⟨StrategyType.SIMPLE_DIRECTIONAL, "ETHUSDT", "long", 0, 0.07, 0, 0, 1,
        1.5, 0, none, none⟩],
        ⟨StrategyType.SIMPLE_DIRECTIONAL, "ETHUSDT", "long", 0, 0.07, 0, 0, 1,
        1.5, 0, none, none⟩) := by
    simp only [execute_strategy, setStrategy, exitOpp, Option.getD_some, Option.getD_none]
    rw [if_neg (by norm_num : ¬((1 : ℚ) = 0))]
    norm_num [market_B, hlow]
  refine ⟨hzero, exitOpp "LONG" (1/1000) (1/1000),
    ⟨StrategyType.SIMPLE_DIRECTIONAL, "ETHUSDT", "long", 0, 0.07, 0, 0, 1, 1.5, 0,
      none, none⟩, hB, rfl, hexec, rfl, ?_⟩
  exact hzero _ (by simp) (by simp)

/-- Witness for C10: the unguarded division fires on a concrete singleton book
holding one position of size 0. -/
theorem C10_portfolio_summary_div_zero_witness :
    get_portfolio_summary
      [⟨StrategyType.SIMPLE_DIRECTIONAL, "ETHUSDT", "long", 0, 0.07, 0, 0, 1, 1.5, 0,
        none, none⟩] = .error "ZeroDivisionError" :=
  C10_portfolio_summary_div_zero.1 _ (by simp) (by simp)

/-- What one loop iteration does to the map (no exception path). -/
def override_pure (m : List (String × BandDict)) (kv : String × CfgVal) :
    List (String × BandDict) :=
  match kv.2 with
  | .dict band => dictSet m kv.1 (dictMerge (BandConfig.toDict default_bands) band)
  | _ => m

theorem override_step_ok (m : List (String × BandDict)) (kv : String × CfgVal) :
    override_step m kv = .ok (override_pure m kv) := by
  obtain ⟨k, v⟩ := kv
  cases v <;> rfl

/-- The pure result of the whole override loop. -/
def apply_overrides_pure : List (String × CfgVal) → List (String × BandDict) →
    List (String × BandDict)
  | [], m => m
  | kv :: rest, m => apply_overrides_pure rest (override_pure m kv)

theorem apply_overrides_ok (entries : List (String × CfgVal))
    (m0 : List (String × BandDict)) :
    apply_overrides entries m0 = .ok (apply_overrides_pure entries m0) := by
  induction entries generalizing m0 with
  | nil => rfl
  | cons kv rest ih =>
      simp [apply_overrides, apply_overrides_pure, override_step_ok, ih]

theorem apply_bands_config_ok (v : CfgVal) (m0 : List (String × BandDict)) :
    ∃ m, apply_bands_config v m0 = .ok m := by
  cases v with
  | dict es =>
      by_cases he : es.isEmpty
      · exact ⟨m0, by simp [apply_bands_config, CfgVal.truthy, he]⟩
      · refine ⟨apply_overrides_pure es m0, ?_⟩
        simp [apply_bands_config, CfgVal.truthy, he, CfgVal.isDict, pyItems,
          apply_overrides_ok]
  | num q =>
      refine ⟨m0, ?_⟩
      unfold apply_bands_config
      split_ifs with h1 h2
      · exact absurd h2 (by simp [CfgVal.isDict])
      · rfl
      · rfl
  | str s =>
      refine ⟨m0, ?_⟩
      unfold apply_bands_config
      split_ifs with h1 h2
      · exact absurd h2 (by simp [CfgVal.isDict])
      · rfl
      · rfl
  | null => exact ⟨m0, rfl⟩
  | list xs =>
      refine ⟨m0, ?_⟩
      unfold apply_bands_config
      split_ifs with h1 h2
      · exact absurd h2 (by simp [CfgVal.isDict])
      · rfl
      · rfl
  | bool b =>
      refine ⟨m0, ?_⟩
      unfold apply_bands_config
      split_ifs with h1 h2
      · exact absurd h2 (by simp [CfgVal.isDict])
      · rfl
      · rfl

theorem dictGetOpt_dictSet_self {α : Type} (d : List (String × α)) (k : String)
    (v : α) : dictGetOpt (dictSet d k v) k = some v := by
  induction d with
  | nil => simp [dictSet, dictGetOpt]
  | cons p rest ih =>
      by_cases h : p.1 = k
      · simp [dictSet, h, dictGetOpt]
      · simp [dictSet, h, dictGetOpt, ih]

theorem dictGetOpt_dictSet_ne {α : Type} (d : List (String × α)) (k k' : String)
    (v : α) (h : k' ≠ k) : dictGetOpt (dictSet d k v) k' = dictGetOpt d k' := by
  have hk : ¬ (k = k') := fun hh => h hh.symm
  induction d with
  | nil => simp [dictSet, dictGetOpt, hk]
  | cons p rest ih =>
      by_cases hp : p.1 = k
      · have hp' : ¬ p.1 = k' := by rw [hp]; exact hk
        simp [dictSet, hp, dictGetOpt, hk, hp']
      · simp [dictSet, hp, dictGetOpt, ih]

theorem dictGetOpt_not_mem {α : Type} (d : List (String × α)) (k : String)
    (h : k ∉ d.map Prod.fst) : dictGetOpt d k = none := by
  induction d with
  | nil => rfl
  | cons p rest ih =>
      simp only [List.map_cons, List.mem_cons, not_or] at h
      have hp : ¬ p.1 = k := fun hh => h.1 hh.symm
      simp [dictGetOpt, hp, ih h.2]

/-- `{**a, **b}` looks keys up in `b` first, falling back to `a` — provided `b`
has no duplicate keys (a Python dict never does). -/
theorem dictGetOpt_dictMerge (b a : List (String × CfgVal))
    (hnd : (b.map Prod.fst).Nodup) (k : String) :
    (dictGetOpt b k = none → dictGetOpt (dictMerge a b) k = dictGetOpt a k) ∧
    (∀ v, dictGetOpt b k = some v → dictGetOpt (dictMerge a b) k = some v) := by
  induction b generalizing a with
  | nil => exact ⟨fun _ => rfl, fun v hv => by simp [dictGetOpt] at hv⟩
  | cons kv rest ih =>
      have hmerge : dictMerge a (kv :: rest) = dictMerge (dictSet a kv.1 kv.2) rest := rfl
      simp only [List.map_cons, List.nodup_cons] at hnd
      constructor
      · intro hnone
        by_cases hk : kv.1 = k
        · simp [dictGetOpt, hk] at hnone
        · simp only [dictGetOpt, if_neg hk] at hnone
          rw [hmerge, (ih (dictSet a kv.1 kv.2) hnd.2).1 hnone,
            dictGetOpt_dictSet_ne _ _ _ _ (fun hh => hk hh.symm)]
      · intro v hv
        by_cases hk : kv.1 = k
        · simp only [dictGetOpt, if_pos hk] at hv
          have hrest : dictGetOpt rest k = none := by
            refine dictGetOpt_not_mem rest k ?_
            rw [← hk]
            exact hnd.1
          rw [hmerge, (ih (dictSet a kv.1 kv.2) hnd.2).1 hrest, hk,
            dictGetOpt_dictSet_self]
          rw [← hv]
        · simp only [dictGetOpt, if_neg hk] at hv
          rw [hmerge]
          exact (ih (dictSet a kv.1 kv.2) hnd.2).2 v hv

/-- Claim C8: band-configuration handling — (a) construction never raises for
any config value; (b) a well-formed (dict) override entry yields per-symbol
bands equal to the defaults overridden key-by-key (merged, not replaced);
(c) a malformed (non-dict) override entry is ignored and (c') a malformed
override table leaves the defaults untouched; (d) `get_bands` on a symbol with
no configured entry returns the default bands. -/
theorem C8_band_config_handling :
    (∀ config : List (String × CfgVal),
      init_bands_e config = .ok (strategy_manager_bands config)) ∧
    (∀ (sym : String) (band : List (String × CfgVal)),
      get_bands_d
        (strategy_manager_bands [("implied_apr_bands", .dict [(sym, .dict band)])])
        sym = dictMerge (BandConfig.toDict default_bands) band ∧
      ((band.map Prod.fst).Nodup → ∀ k : String,
        (dictGetOpt band k = none →
          dictGetOpt (dictMerge (BandConfig.toDict default_bands) band) k =
            dictGetOpt (BandConfig.toDict default_bands) k) ∧
        (∀ v, dictGetOpt band k = some v →
          dictGetOpt (dictMerge (BandConfig.toDict default_bands) band) k = some v))) ∧
    (∀ (sym : String) (v : CfgVal), v.isDict = false →
      strategy_manager_bands [("implied_apr_bands", .dict [(sym, v)])] =
        bands_by_symbol₀d) ∧
    (∀ v : CfgVal, v.isDict = false → v.truthy = true →
      strategy_manager_bands [("implied_apr_bands", v)] = bands_by_symbol₀d) ∧
    (∀ (bbs : List (String × BandConfig)) (sym : String),
      dictGetOpt bbs sym = none → get_bands bbs sym = default_bands) := by
  have hok : ∀ config : List (String × CfgVal),
      init_bands_e config = .ok (strategy_manager_bands config) := by
    intro config
    cases hc : dictGetOpt config "implied_apr_bands" with
    | none => simp [init_bands_e, strategy_manager_bands, hc]
    | some v =>
        obtain ⟨m, hm⟩ := apply_bands_config_ok v bands_by_symbol₀d
        simp [init_bands_e, strategy_manager_bands, hc, hm]
  refine ⟨hok, ?_, ?_, ?_, ?_⟩
  · intro sym band
    constructor
    · have h1 : strategy_manager_bands [("implied_apr_bands", .dict [(sym, .dict band)])] =
          dictSet bands_by_symbol₀d sym
            (dictMerge (BandConfig.toDict default_bands) band) := by
        simp [strategy_manager_bands, init_bands_e, dictGetOpt, apply_bands_config,
          CfgVal.truthy, CfgVal.isDict, pyItems, apply_overrides, override_step,
          asDict]
      rw [h1, get_bands_d, dictGet_dictSet_self]
    · intro hnd k
      exact dictGetOpt_dictMerge band (BandConfig.toDict default_bands) hnd k
  · intro sym v hv
    have hstep : override_step bands_by_symbol₀d (sym, v) = .ok bands_by_symbol₀d := by
      unfold override_step
      rw [if_neg (by simp [hv])]
    simp [strategy_manager_bands, init_bands_e, dictGetOpt, apply_bands_config,
      CfgVal.truthy, CfgVal.isDict, pyItems, apply_overrides, hstep]
  · intro v hv _
    cases v <;> simp_all [strategy_manager_bands, init_bands_e, dictGetOpt,
      apply_bands_config, CfgVal.isDict]
  · intro bbs sym h
    rw [get_bands, dictGet_eq_getOpt, h]
    rfl

theorem actionsOf_cons (m : MarketCondition) (rest : List MarketCondition)
    (st : Store) :
    actionsOf (m :: rest) st =
      ((evaluate_core m st).1.bind (fun o => o.action)) ::
        actionsOf rest (evaluate_core m st).2.1 := rfl

/-- An action of the form `"EXIT_" + s` is never an entry action (the second
character is 'X', while both entry actions have 'N' there). -/
theorem exit_append_not_enter (cp : String) : isEnter ("EXIT_" ++ cp) = false := by
  have key : ∀ s : String, s.data[1]? = some 'N' → (("EXIT_" ++ cp) == s) = false := by
    intro s hs
    rw [beq_eq_false_iff_ne]
    intro heq
    have h3 : (some 'X' : Option Char) = some 'N' := by
      calc (some 'X' : Option Char) = ("EXIT_" ++ cp).data[1]? := by
            rw [String.data_append,
              show ("EXIT_" : String).data = ['E', 'X', 'I', 'T', '_'] from rfl]
            simp [List.cons_append, List.getElem?_cons_succ, List.getElem?_cons_zero]
          _ = s.data[1]? := by rw [heq]
          _ = some 'N' := hs
    simp at h3
  simp [isEnter, key "ENTER_LONG" rfl, key "ENTER_SHORT" rfl]

/-- If a step emits an entry action, the persisted state for the snapshot's
symbol afterwards is the corresponding open state. -/
theorem evaluate_core_enter_state (m : MarketCondition) (st : Store) (a : String)
    (h : (evaluate_core m st).1.bind (fun o => o.action) = some a)
    (ha : isEnter a = true) :
    (a = "ENTER_LONG" ∧ dictGet (evaluate_core m st).2.1 m.symbol "NONE" = "LONG") ∨
    (a = "ENTER_SHORT" ∧ dictGet (evaluate_core m st).2.1 m.symbol "NONE" = "SHORT") := by
  simp only [evaluate_core] at h ⊢
  split_ifs at h ⊢ with h0 hs hp hx
  · left
    refine ⟨?_, dictGet_dictSet_self st m.symbol "LONG" "NONE"⟩
    simpa [enterOpp] using h.symm
  · right
    refine ⟨?_, dictGet_dictSet_self st m.symbol "SHORT" "NONE"⟩
    simpa [enterOpp] using h.symm
  · simp at h
  · exfalso
    have ha' : a = "EXIT_" ++ dictGet st m.symbol "NONE" := by
      simpa [exitOpp] using h.symm
    rw [ha', exit_append_not_enter] at ha
    simp at ha
  · simp at h

/-- After an entry for a symbol, the trace of further evaluations of that
symbol emits no entry action before it has emitted the matching exit action
(at which point the persisted state is back to NONE). -/
theorem dir_after_enter (sym s0 : String) (hs0 : s0 = "LONG" ∨ s0 = "SHORT") :
    ∀ (ms : List MarketCondition) (st : Store),
      (∀ m ∈ ms, m.symbol = sym) →
      dictGet st sym "NONE" = s0 →
      ∀ (j : ℕ) (b : String),
        (actionsOf ms st)[j]? = some (some b) → isEnter b = true →
        ∃ k, k < j ∧ (actionsOf ms st)[k]? = some (some ("EXIT_" ++ s0)) ∧
          dictGet (runStore (ms.take (k+1)) st) sym "NONE" = "NONE" := by
  intro ms
  induction ms with
  | nil =>
      intro st _ _ j b hj _
      simp [actionsOf] at hj
  | cons m rest ih =>
      intro st hsym hst j b hj hbe
      have hm : m.symbol = sym := hsym m (List.mem_cons_self m rest)
      have hsym' : ∀ m' ∈ rest, m'.symbol = sym :=
        fun m' hm' => hsym m' (List.mem_cons_of_mem m hm')
      have hne : ¬ (dictGet st m.symbol "NONE" = "NONE") := by
        rw [hm, hst]
        rcases hs0 with h | h <;> rw [h] <;> decide
      by_cases hex : |m.cex_funding_rate - m.boros_implied_apr| ≤ exit_threshold
      · have hcore : evaluate_core m st =
            (some (exitOpp s0 (m.cex_funding_rate - m.boros_implied_apr)
              |m.cex_funding_rate - m.boros_implied_apr|),
             dictSet st sym "NONE", true) := by
          simp only [evaluate_core]
          rw [if_neg hne, if_pos hex, hm, hst]
        cases j with
        | zero =>
            rw [actionsOf_cons, hcore] at hj
            have hjv : "EXIT_" ++ s0 = b := by
              simpa [exitOpp] using hj
            rw [← hjv, exit_append_not_enter] at hbe
            simp at hbe
        | succ j' =>
            refine ⟨0, Nat.succ_pos j', ?_, ?_⟩
            · rw [actionsOf_cons, hcore]
              simp [exitOpp]
            · show dictGet (runStore (List.take 1 (m :: rest)) st) sym "NONE" = "NONE"
              have h1 : runStore (List.take 1 (m :: rest)) st =
                  (evaluate_core m st).2.1 := rfl
              rw [h1, hcore]
              exact dictGet_dictSet_self st sym "NONE" "NONE"
      · have hcore : evaluate_core m st = (none, st, false) := by
          simp only [evaluate_core]
          rw [if_neg hne, if_neg hex]
        cases j with
        | zero =>
            rw [actionsOf_cons, hcore] at hj
            simp at hj
        | succ j' =>
            have hj' : (actionsOf rest st)[j']? = some (some b) := by
              rw [actionsOf_cons, hcore] at hj
              simpa using hj
            obtain ⟨k, hk, hact, hstate⟩ := ih st hsym' hst j' b hj' hbe
            refine ⟨k + 1, Nat.succ_lt_succ hk, ?_, ?_⟩
            · rw [actionsOf_cons, hcore]
              simpa using hact
            · rw [List.take_succ_cons]
              show dictGet (runStore (List.take (k+1) rest) (evaluate_core m st).2.1)
                sym "NONE" = "NONE"
              rw [hcore]
              exact hstate

/-- Between any entry and any later entry in a single-symbol trace there is a
step emitting the exit matching the first entry, after which the persisted
state is NONE. -/
theorem dir_enter_requires_exit (sym : String) :
    ∀ (ms : List MarketCondition) (st : Store),
      (∀ m ∈ ms, m.symbol = sym) →
      ∀ (i j : ℕ) (a b : String), i < j →
        (actionsOf ms st)[i]? = some (some a) → isEnter a = true →
        (actionsOf ms st)[j]? = some (some b) → isEnter b = true →
        ∃ k, i < k ∧ k < j ∧
          (actionsOf ms st)[k]? = some (some (matchingExit a)) ∧
          dictGet (runStore (ms.take (k+1)) st) sym "NONE" = "NONE" := by
  intro ms
  induction ms with
  | nil =>
      intro st _ i j a b _ hi _ _ _
      simp [actionsOf] at hi
  | cons m rest ih =>
      intro st hsym i j a b hij hi ha hj hb
      have hm : m.symbol = sym := hsym m (List.mem_cons_self m rest)
      have hsym' : ∀ m' ∈ rest, m'.symbol = sym :=
        fun m' hm' => hsym m' (List.mem_cons_of_mem m hm')
      obtain ⟨j', rfl⟩ : ∃ j', j = j' + 1 := ⟨j - 1, by omega⟩
      rw [actionsOf_cons] at hi hj
      simp only [List.getElem?_cons_succ] at hj
      cases i with
      | zero =>
          have hhead : (evaluate_core m st).1.bind (fun o => o.action) = some a := by
            simpa using hi
          rcases evaluate_core_enter_state m st a hhead ha with ⟨ha', hstate'⟩ | ⟨ha', hstate'⟩
          · rw [hm] at hstate'
            obtain ⟨k, hkj, hact, hst2⟩ := dir_after_enter sym "LONG" (Or.inl rfl)
              rest (evaluate_core m st).2.1 hsym' hstate' j' b hj hb
            refine ⟨k + 1, Nat.succ_pos k, Nat.succ_lt_succ hkj, ?_, ?_⟩
            · rw [actionsOf_cons]
              simp only [List.getElem?_cons_succ]
              rw [ha']
              exact hact
            · rw [List.take_succ_cons]
              exact hst2
          · rw [hm] at hstate'
            obtain ⟨k, hkj, hact, hst2⟩ := dir_after_enter sym "SHORT" (Or.inr rfl)
              rest (evaluate_core m st).2.1 hsym' hstate' j' b hj hb
            refine ⟨k + 1, Nat.succ_pos k, Nat.succ_lt_succ hkj, ?_, ?_⟩
            · rw [actionsOf_cons]
              simp only [List.getElem?_cons_succ]
              rw [ha']
              exact hact
            · rw [List.take_succ_cons]
              exact hst2
      | succ i' =>
          simp only [List.getElem?_cons_succ] at hi
          obtain ⟨k, hik, hkj, hact, hstate⟩ :=
            ih (evaluate_core m st).2.1 hsym' i' j' a b (by omega) hi ha hj hb
          refine ⟨k + 1, by omega, by omega, ?_, ?_⟩
          · rw [actionsOf_cons]
            simpa using hact
          · rw [List.take_succ_cons]
            exact hstate

/-- Claim C1: hysteresis invariant of the Simple Directional strategy — over
any sequence of snapshots for one symbol, starting from persisted state NONE,
once an evaluation emits an `ENTER_*` action, no later evaluation emits any
`ENTER_*` action until some evaluation in between has emitted the matching
`EXIT_*` action and the persisted state has returned to NONE. -/
theorem C1_hysteresis_invariant (sym : String) (ms : List MarketCondition)
    (st : Store) (hsym : ∀ m ∈ ms, m.symbol = sym)
    (_hstart : dictGet st sym "NONE" = "NONE")
    (i j : ℕ) (a b : String) (hij : i < j)
    (hi : (actionsOf ms st)[i]? = some (some a)) (ha : isEnter a = true)
    (hj : (actionsOf ms st)[j]? = some (some b)) (hb : isEnter b = true) :
    ∃ k, i < k ∧ k < j ∧
      (actionsOf ms st)[k]? = some (some (matchingExit a)) ∧
      dictGet (runStore (ms.take (k+1)) st) sym "NONE" = "NONE" :=
  dir_enter_requires_exit sym ms st hsym i j a b hij hi ha hj hb

/-- Witness for C1: in the concrete trace enter (A) / exit (B) / enter (A),
the two entries at positions 0 and 2 are separated by the matching EXIT_LONG,
after which the persisted state is NONE. -/
theorem C1_hysteresis_invariant_witness :
    ∃ k, 0 < k ∧ k < 2 ∧
      (actionsOf [market_A, market_B, market_A] [])[k]? =
        some (some (matchingExit "ENTER_LONG")) ∧
      dictGet (runStore (List.take (k+1) [market_A, market_B, market_A]) [])
        "ETHUSDT" "NONE" = "NONE" := by
  have h0 : evaluate_core market_A [] =
      (some (enterOpp "ENTER_LONG" "LONG" (1/25) (1/25)), [("ETHUSDT", "LONG")], true) := by
    norm_num [evaluate_core, market_A, dictGet, dictSet, min_spread, exit_threshold,
      abs_of_pos]
  have h1 : evaluate_core market_B [("ETHUSDT", "LONG")] =
      (some (exitOpp "LONG" (1/1000) (1/1000)), [("ETHUSDT", "NONE")], true) := by
    norm_num [evaluate_core, market_B, dictGet, dictSet, min_spread, exit_threshold,
      abs_of_pos]
    decide
  have h2 : evaluate_core market_A [("ETHUSDT", "NONE")] =
      (some (enterOpp "ENTER_LONG" "LONG" (1/25) (1/25)), [("ETHUSDT", "LONG")], true) := by
    norm_num [evaluate_core, market_A, dictGet, dictSet, min_spread, exit_threshold,
      abs_of_pos]
  refine C1_hysteresis_invariant "ETHUSDT" [market_A, market_B, market_A] [] ?_ rfl
    0 2 "ENTER_LONG" "ENTER_LONG" (by norm_num) ?_ (by decide) ?_ (by decide)
  · intro m hm
    simp only [List.mem_cons, List.mem_singleton] at hm
    rcases hm with rfl | rfl | rfl | h
    · rfl
    · rfl
    · rfl
    · simp at h
  · rw [actionsOf_cons, h0]
    simp [enterOpp]
  · rw [actionsOf_cons, h0]
    simp only [List.getElem?_cons_succ]
    rw [actionsOf_cons, h1]
    simp only [List.getElem?_cons_succ]
    rw [actionsOf_cons, h2]
    simp [enterOpp]

/-- Witness for C8: a one-key override for a fresh symbol overrides that key and
retains every default key; an unconfigured symbol gets the default bands. -/
theorem C8_band_config_handling_witness :
    dictGetOpt (dictMerge (BandConfig.toDict default_bands)
      [("long_entry", CfgVal.num 1)]) "long_entry" = some (CfgVal.num 1) ∧
    get_bands [] "BTCUSDT" = default_bands := by
  constructor
  · exact ((C8_band_config_handling.2.1 "X" [("long_entry", CfgVal.num 1)]).2
      (by simp) "long_entry").2 (CfgVal.num 1) rfl
  · exact C8_band_config_handling.2.2.2.2 [] "BTCUSDT" rfl
